import Mathlib

/-!
Verification of the c3s_sm_reader package (interface.py, reshuffle.py).

The embedding models the date arithmetic used by
`C3S_Nc_Img_Stack.tstamps_for_daterange` (Python `datetime` dates plus
`dateutil.relativedelta` steps), the filename-template scan of
`C3S_Nc_Img_Stack._parse_filename`, the point reader `C3STs._read_gp`,
the image reader `C3SImg.read`, and the command-line helpers
`str2bool` / `mkdate` / the argparse defaults of `parse_args`.

Dates carry their validity invariants intrinsically, exactly as Python
`datetime.date` does (year >= 1, 1 <= month <= 12, 1 <= day <= days in
month).  Time-of-day components are never modified by any of the
modelled operations (`relativedelta` with whole months/days preserves
them), so dates are modelled at day granularity.
-/

/-- Gregorian leap-year test, as implemented by Python's `calendar.isleap`
(the rule `datetime` uses). -/
def isLeap (y : Nat) : Bool :=
  (y % 4 == 0 && y % 100 != 0) || (y % 400 == 0)

/-- Number of days in month `m` (1..12) of year `y`. -/
def daysInMonth (y m : Nat) : Nat :=
  if m = 2 then (if isLeap y then 29 else 28)
  else if m = 4 ∨ m = 6 ∨ m = 9 ∨ m = 11 then 30
  else 31

theorem one_le_daysInMonth (y m : Nat) : 1 ≤ daysInMonth y m := by
  unfold daysInMonth
  split
  · split <;> omega
  · split <;> omega

/-- A calendar date with the same validity invariants as Python's
`datetime.date`. -/
structure Date where
  year : Nat
  month : Nat
  day : Nat
  year_pos : 1 ≤ year
  month_pos : 1 ≤ month
  month_le : month ≤ 12
  day_pos : 1 ≤ day
  day_le : day ≤ daysInMonth year month

/-- Total number of days in months `1..m` of year `y`. -/
def daysUpTo (y : Nat) : Nat → Nat
  | 0 => 0
  | m + 1 => daysUpTo y m + daysInMonth y (m + 1)

/-- Number of leap years strictly before year `y` (among years `1..y-1`). -/
def leapsBefore (y : Nat) : Nat :=
  (y - 1) / 4 + (y - 1) / 400 - (y - 1) / 100

/-- Rata-die style day number of a date; strictly monotone in
chronological order, so it mirrors Python `datetime` comparison. -/
def toN (dt : Date) : Nat :=
  365 * (dt.year - 1) + leapsBefore dt.year + daysUpTo dt.year (dt.month - 1) + dt.day

/-- Chronological order on dates (Python's `<=` on `datetime`). -/
def dle (a b : Date) : Prop := toN a ≤ toN b

instance (a b : Date) : Decidable (dle a b) :=
  inferInstanceAs (Decidable (toN a ≤ toN b))

/-- Step a date forward by one day (`relativedelta(days=+1)`). -/
def addOneDay (dt : Date) : Date :=
  if h : dt.day < daysInMonth dt.year dt.month then
    ⟨dt.year, dt.month, dt.day + 1, dt.year_pos, dt.month_pos, dt.month_le, by omega, h⟩
  else if h2 : dt.month < 12 then
    ⟨dt.year, dt.month + 1, 1, dt.year_pos, by omega, h2, by omega,
      one_le_daysInMonth _ _⟩
  else
    ⟨dt.year + 1, 1, 1, by omega, by omega, by omega, by omega,
      one_le_daysInMonth _ _⟩

/-- Step a date forward by one calendar month (`relativedelta(months=+1)`):
the month is incremented (rolling the year) and the day is clamped to the
length of the target month. -/
def addMonths1 (dt : Date) : Date :=
  if h : dt.month < 12 then
    ⟨dt.year, dt.month + 1,
      if dt.day ≤ daysInMonth dt.year (dt.month + 1) then dt.day
      else daysInMonth dt.year (dt.month + 1),
      dt.year_pos, by omega, h,
      by have := dt.day_pos; have := one_le_daysInMonth dt.year (dt.month + 1); split <;> omega,
      by split <;> omega⟩
  else
    ⟨dt.year + 1, 1,
      if dt.day ≤ daysInMonth (dt.year + 1) 1 then dt.day
      else daysInMonth (dt.year + 1) 1,
      by omega, by omega, by omega,
      by have := dt.day_pos; have := one_le_daysInMonth (dt.year + 1) 1; split <;> omega,
      by split <;> omega⟩

/-- The three temporal resolutions recognized by
`C3S_Nc_Img_Stack.tstamps_for_daterange`. -/
inductive TempRes where
  | monthly
  | daily
  | dekadal
deriving DecidableEq

/-- The step function chosen by `tstamps_for_daterange` for a recognized
resolution: `relativedelta(months=+1)`, `relativedelta(days=+1)`, or
`relativedelta(days=+10)` (ten iterated day steps). -/
def nextD (res : TempRes) (dt : Date) : Date :=
  match res with
  | TempRes.monthly => addMonths1 dt
  | TempRes.daily => addOneDay dt
  | TempRes.dekadal => addOneDay^[10] dt

/-- The `if/elif/elif/else` dispatch on the `temp_res` filename field in
`tstamps_for_daterange`; `none` corresponds to the `raise NotImplementedError`
branch. -/
def parseTempRes (s : String) : Option TempRes :=
  if s = "MONTHLY" then some TempRes.monthly
  else if s = "DAILY" then some TempRes.daily
  else if s = "DEKADAL" then some TempRes.dekadal
  else none

/-- The accumulation loop of `tstamps_for_daterange`:
`timestamps = [start]; while next(timestamps[-1]) <= end: append`.
The loop is embedded with an explicit fuel bound; `tstampsLoopF_fuel_irrel`
below shows the result is fuel-independent once the fuel reaches
`toN e + 1 - toN c`, so the bounded recursion computes the source's
unbounded loop. -/
def tstampsLoopF (res : TempRes) (e : Date) : Nat → Date → List Date
  | 0, cur => [cur]
  | fuel + 1, cur =>
    if dle (nextD res cur) e then cur :: tstampsLoopF res e fuel (nextD res cur)
    else [cur]

/-- `C3S_Nc_Img_Stack.tstamps_for_daterange`: dispatch on the resolution
string, then run the accumulation loop; unrecognized resolutions raise
`NotImplementedError` (the spec's `UnsupportedResolution`). -/
def tstamps_for_daterange (temp_res : String) (start_date end_date : Date) :
    Except String (List Date) :=
  match parseTempRes temp_res with
  | some res =>
      Except.ok (tstampsLoopF res end_date (toN end_date + 1 - toN start_date) start_date)
  | none => Except.error "NotImplementedError"

/-- The named fields of the fixed C3S filename template
`(product)-SOILMOISTURE-L3S-(data_type)-(sensor_type)-(temp_res)-(datetime)000000-(subprod)-(version).0.0.nc`. -/
structure FileArgs where
  product : String
  data_type : String
  sensor_type : String
  temp_res : String
  datetime : String
  subprod : String
  version : String
deriving DecidableEq

/-- `file_args['datetime'] = '\x7bdatetime\x7d'`: the datetime field is replaced
with the literal placeholder token so the template can later be re-instantiated
per timestamp. -/
def withDatetimePlaceholder (a : FileArgs) : FileArgs :=
  { a with datetime := "\x7bdatetime\x7d" }

/-- `C3S_Nc_Img_Stack._parse_filename`: walk the directory tree (the walk
order is abstracted as the list of file names in encounter order) and try
`parse(template, f)` on each file (the external `parse` library is abstracted
as the function `parseFile`); the first match wins, with its datetime field
replaced by the placeholder; if nothing matches, raise
`IOError('No file name in passed directory fits to template')`. -/
def parse_filename (parseFile : String → Option FileArgs) :
    List String → Except String FileArgs
  | [] => Except.error "No file name in passed directory fits to template"
  | f :: fs =>
    match parseFile f with
    | none => parse_filename parseFile fs
    | some args => Except.ok (withDatetimePlaceholder args)

/-- A value in a soil-moisture time series: either a number or the
missing-value marker (`np.nan`). -/
inductive TSVal where
  | num (x : Int)
  | nan
deriving DecidableEq

/-- `ts.replace(-9999.0000, np.nan)` applied to one value. -/
def replaceSentinel (v : TSVal) : TSVal :=
  match v with
  | TSVal.num x => if x = -9999 then TSVal.nan else TSVal.num x
  | TSVal.nan => TSVal.nan

/-- A point time series as returned by the parent reader: timestamped
values plus the timezone tag of the index (`none` = timezone-naive). -/
structure TimeSeries where
  entries : List (Nat × TSVal)
  tz : Option String
deriving DecidableEq

/-- `C3STs._read_gp`: take the parent class's result (abstracted as the
`base` argument, the external `GriddedNcOrthoMultiTs` lookup); `None`
propagates; if `remove_nans` is set, replace the sentinel `-9999` with the
missing-value marker; finally `ts.index = ts.index.tz_localize('UTC')`. -/
def read_gp (remove_nans : Bool) (base : Option TimeSeries) : Option TimeSeries :=
  match base with
  | none => none
  | some ts =>
      let ts2 :=
        if remove_nans then
          TimeSeries.mk (ts.entries.map (fun p => (p.1, replaceSentinel p.2))) ts.tz
        else ts
      some (TimeSeries.mk ts2.entries (some "UTC"))

/-- A variable of a netCDF file: its attributes and its (abstract,
already flattened) data. -/
structure NcVar where
  attrs : List (String × String)
  data : List Int

/-- A netCDF file: named variables (`ds.variables`, here `vars`) plus
global attributes. -/
structure NcFile where
  vars : List (String × NcVar)
  ncattrs : List (String × String)

/-- `ds.variables[param]` as a lookup that may fail. -/
def lookupVar (f : NcFile) (name : String) : Option NcVar :=
  f.vars.lookup name

/-- The per-parameter loop of `C3SImg.read`: coordinate names are skipped
via `continue`; `ds.variables[param]` raises `KeyError(param)` when the
variable is absent; otherwise the variable's data and attributes are
collected in order. -/
def readParams (f : NcFile) :
    List String → Except String (List (String × List Int) × List (String × List (String × String)))
  | [] => Except.ok ([], [])
  | p :: ps =>
    if p ∈ ["lat", "lon", "time"] then readParams f ps
    else
      match lookupVar f p with
      | none => Except.error p
      | some v =>
        (readParams f ps).map
          (fun r => ((p, v.data) :: r.1, (p, v.attrs) :: r.2))

/-- `C3SImg.read`: if the first configured parameter is `None` read every
variable in the file, else read the configured list; collect per-variable
data and metadata, then the global attributes.  (The final `Image`
assembly — grid coordinate arrays and the 720x1440 reshape — is the
external `pygeobase`/`numpy` presentation layer and carries the same
payload.) -/
def C3SImg_read (f : NcFile) (params? : Option (List String)) :
    Except String
      (List (String × List Int) × List (String × List (String × String)) × List (String × String)) :=
  let params :=
    match params? with
    | none => f.vars.map Prod.fst
    | some ps => ps
  (readParams f params).map (fun r => (r.1, r.2, f.ncattrs))

/-- `reshuffle.str2bool`. -/
def str2bool (val : String) : Bool :=
  if val ∈ ["True", "true", "t", "T", "1"] then true else false

/-- The `--land_points` option of `parse_args`: argparse applies
`type=str2bool` both to a supplied value and to the string default
`'False'`. -/
def parse_land_points (arg : Option String) : Bool :=
  str2bool (arg.getD "False")

/-- The `--imgbuffer` option of `parse_args`: `type=int, default=50`;
the non-string default is used as-is when the flag is absent. -/
def parse_imgbuffer (arg : Option String) : Option Int :=
  match arg with
  | none => some 50
  | some s => s.toInt?

/-- A parsed command-line datetime: a date plus hour/minute (zero for the
date-only format). -/
structure DateTimeM where
  date : Date
  hour : Nat
  minute : Nat

/-- Numeric value of a digit string. -/
def digitsVal (cs : List Char) : Nat :=
  cs.foldl (fun a c => 10 * a + (c.toNat - 48)) 0

/-- `datetime.strptime(s, '%Y-%m-%d')`: four digits, dash, two digits,
dash, two digits, with the resulting fields forming a valid date;
anything else raises `ValueError`. -/
def strptime_Y_m_d (s : String) : Except String Date :=
  match s.toList with
  | [y1, y2, y3, y4, s1, m1, m2, s2, d1, d2] =>
    if ([y1, y2, y3, y4, m1, m2, d1, d2].all Char.isDigit ∧ s1 = '-' ∧ s2 = '-') then
      let y := digitsVal [y1, y2, y3, y4]
      let m := digitsVal [m1, m2]
      let d := digitsVal [d1, d2]
      if h : 1 ≤ y ∧ 1 ≤ m ∧ m ≤ 12 ∧ 1 ≤ d ∧ d ≤ daysInMonth y m then
        Except.ok ⟨y, m, d, h.1, h.2.1, h.2.2.1, h.2.2.2.1, h.2.2.2.2⟩
      else Except.error "ValueError"
    else Except.error "ValueError"
  | _ => Except.error "ValueError"

/-- `datetime.strptime(s, '%Y-%m-%dT%H:%M')`: the date part as above,
then `T`, two-digit hour below 24, `:`, two-digit minute below 60. -/
def strptime_Y_m_dTHM (s : String) : Except String DateTimeM :=
  match s.toList with
  | [y1, y2, y3, y4, s1, m1, m2, s2, d1, d2, s3, h1, h2, s4, n1, n2] =>
    if ([y1, y2, y3, y4, m1, m2, d1, d2, h1, h2, n1, n2].all Char.isDigit ∧
        s1 = '-' ∧ s2 = '-' ∧ s3 = 'T' ∧ s4 = ':') then
      let y := digitsVal [y1, y2, y3, y4]
      let m := digitsVal [m1, m2]
      let d := digitsVal [d1, d2]
      let hh := digitsVal [h1, h2]
      let mm := digitsVal [n1, n2]
      if h : 1 ≤ y ∧ 1 ≤ m ∧ m ≤ 12 ∧ 1 ≤ d ∧ d ≤ daysInMonth y m ∧ hh < 24 ∧ mm < 60 then
        Except.ok ⟨⟨y, m, d, h.1, h.2.1, h.2.2.1, h.2.2.2.1, h.2.2.2.2.1⟩, hh, mm⟩
      else Except.error "ValueError"
    else Except.error "ValueError"
  | _ => Except.error "ValueError"

/-- `reshuffle.mkdate`: dispatch on the string length; a length of
neither 10 nor 16 falls off the end of the function, returning `None`
without raising. -/
def mkdate (s : String) : Except String (Option DateTimeM) :=
  if s.length = 10 then (strptime_Y_m_d s).map (fun d => some ⟨d, 0, 0⟩)
  else if s.length = 16 then (strptime_Y_m_dTHM s).map some
  else Except.ok none

/-- 1991-01-15. -/
def d19910115 : Date := ⟨1991, 1, 15, by decide, by decide, by decide, by decide, by decide⟩

/-- 1991-02-15. -/
def d19910215 : Date := ⟨1991, 2, 15, by decide, by decide, by decide, by decide, by decide⟩

/-- 1991-03-15. -/
def d19910315 : Date := ⟨1991, 3, 15, by decide, by decide, by decide, by decide, by decide⟩

/-- 1991-04-15. -/
def d19910415 : Date := ⟨1991, 4, 15, by decide, by decide, by decide, by decide, by decide⟩

/-- 1991-08-05. -/
def d19910805 : Date := ⟨1991, 8, 5, by decide, by decide, by decide, by decide, by decide⟩

/-- 1991-08-10. -/
def d19910810 : Date := ⟨1991, 8, 10, by decide, by decide, by decide, by decide, by decide⟩


/-! Calendar lemmas: the day number `toN` increases by exactly one under a
day step and strictly increases under a month step, which is what makes
the enumeration loop of `tstamps_for_daterange` produce strictly
increasing timestamps and terminate. -/

theorem isLeap_iff (y : Nat) :
    isLeap y = true ↔ ((y % 4 = 0 ∧ y % 100 ≠ 0) ∨ y % 400 = 0) := by
  simp [isLeap, Bool.or_eq_true, Bool.and_eq_true, beq_iff_eq, bne_iff_ne]

theorem daysUpTo_eleven (y : Nat) :
    daysUpTo y 11 = if isLeap y then 335 else 334 := by
  have h : daysUpTo y 11 =
      0 + daysInMonth y 1 + daysInMonth y 2 + daysInMonth y 3 + daysInMonth y 4 +
      daysInMonth y 5 + daysInMonth y 6 + daysInMonth y 7 + daysInMonth y 8 +
      daysInMonth y 9 + daysInMonth y 10 + daysInMonth y 11 := rfl
  rw [h]
  by_cases hl : isLeap y = true <;> simp [daysInMonth, hl]

theorem leapsBefore_succ (y : Nat) (hy : 1 ≤ y) :
    leapsBefore (y + 1) = leapsBefore y + (if isLeap y then 1 else 0) := by
  unfold leapsBefore
  simp only [Nat.add_sub_cancel]
  split
  · rename_i hl
    have := (isLeap_iff y).mp hl
    omega
  · rename_i hl
    have : ¬((y % 4 = 0 ∧ y % 100 ≠ 0) ∨ y % 400 = 0) := fun hc => hl ((isLeap_iff y).mpr hc)
    omega

theorem toN_addOneDay (dt : Date) : toN (addOneDay dt) = toN dt + 1 := by
  obtain ⟨y, m, d, hy, hm1, hm2, hd1, hd2⟩ := dt
  unfold addOneDay
  dsimp only
  split
  · simp only [toN]
    omega
  · split
    · rename_i h h2
      obtain ⟨m', rfl⟩ : ∃ m', m = m' + 1 := ⟨m - 1, by omega⟩
      have hs : daysUpTo y (m' + 1) = daysUpTo y m' + daysInMonth y (m' + 1) := rfl
      simp only [toN, Nat.add_sub_cancel]
      omega
    · rename_i h h2
      have hm : m = 12 := by omega
      subst hm
      have hd31 : daysInMonth y 12 = 31 := rfl
      have h11 : daysUpTo y 11 = if isLeap y then 335 else 334 := daysUpTo_eleven y
      have hls : leapsBefore (y + 1) = leapsBefore y + (if isLeap y then 1 else 0) :=
        leapsBefore_succ y hy
      have h0 : daysUpTo (y + 1) 0 = 0 := rfl
      simp only [toN, show (12 : Nat) - 1 = 11 from rfl, show (1 : Nat) - 1 = 0 from rfl, h0]
      by_cases hl : isLeap y = true <;> simp [hl] at h11 hls <;> omega

theorem toN_addMonths1 (dt : Date) : toN dt < toN (addMonths1 dt) := by
  obtain ⟨y, m, d, hy, hm1, hm2, hd1, hd2⟩ := dt
  unfold addMonths1
  dsimp only
  split
  · rename_i h
    obtain ⟨m', rfl⟩ : ∃ m', m = m' + 1 := ⟨m - 1, by omega⟩
    have hs : daysUpTo y (m' + 1) = daysUpTo y m' + daysInMonth y (m' + 1) := rfl
    have hnext := one_le_daysInMonth y (m' + 1 + 1)
    simp only [toN, Nat.add_sub_cancel]
    split <;> omega
  · rename_i h
    have hm : m = 12 := by omega
    subst hm
    have hd31 : daysInMonth y 12 = 31 := rfl
    have h11 : daysUpTo y 11 = if isLeap y then 335 else 334 := daysUpTo_eleven y
    have hls : leapsBefore (y + 1) = leapsBefore y + (if isLeap y then 1 else 0) :=
      leapsBefore_succ y hy
    have h0 : daysUpTo (y + 1) 0 = 0 := rfl
    have hjan : daysInMonth (y + 1) 1 = 31 := rfl
    simp only [toN, show (12 : Nat) - 1 = 11 from rfl, show (1 : Nat) - 1 = 0 from rfl, h0]
    by_cases hl : isLeap y = true <;>
      simp [hl] at h11 hls <;>
      split <;> omega

theorem toN_iterate_addOneDay (n : Nat) (dt : Date) :
    toN (addOneDay^[n] dt) = toN dt + n := by
  induction n generalizing dt with
  | zero => simp
  | succ k ih =>
    rw [Function.iterate_succ_apply, ih, toN_addOneDay]
    omega

theorem toN_nextD (res : TempRes) (dt : Date) : toN dt < toN (nextD res dt) := by
  cases res with
  | monthly => exact toN_addMonths1 dt
  | daily =>
    have := toN_addOneDay dt
    simp only [nextD]
    omega
  | dekadal =>
    have := toN_iterate_addOneDay 10 dt
    simp only [nextD]
    omega

/-! Lemmas about the enumeration loop. -/

theorem tstampsLoopF_head (res : TempRes) (e : Date) (k : Nat) (c : Date) :
    (tstampsLoopF res e k c).head? = some c := by
  cases k with
  | zero => rfl
  | succ k =>
    simp only [tstampsLoopF]
    split <;> rfl

theorem tstampsLoopF_chain_step (res : TempRes) (e : Date) (k : Nat) (c : Date) :
    List.Chain' (fun a b => b = nextD res a) (tstampsLoopF res e k c) := by
  induction k generalizing c with
  | zero => exact List.chain'_singleton c
  | succ k ih =>
    simp only [tstampsLoopF]
    split
    · rw [List.chain'_cons']
      refine ⟨?_, ih (nextD res c)⟩
      intro b hb
      rw [tstampsLoopF_head res e k (nextD res c)] at hb
      simp only [Option.mem_def, Option.some.injEq] at hb
      exact hb.symm
    · exact List.chain'_singleton c

theorem tstampsLoopF_mem_le (res : TempRes) (e : Date) (k : Nat) (c : Date)
    (hc : dle c e) : ∀ d ∈ tstampsLoopF res e k c, dle d e := by
  induction k generalizing c with
  | zero =>
    intro d hd
    simp only [tstampsLoopF, List.mem_singleton] at hd
    exact hd ▸ hc
  | succ k ih =>
    intro d hd
    simp only [tstampsLoopF] at hd
    split at hd
    · rename_i hg
      rcases List.mem_cons.mp hd with h | h
      · exact h ▸ hc
      · exact ih (nextD res c) hg d h
    · rw [List.mem_singleton] at hd
      exact hd ▸ hc

theorem tstampsLoopF_tail_le (res : TempRes) (e : Date) (k : Nat) (c : Date) :
    ∀ d ∈ (tstampsLoopF res e k c).tail, dle d e := by
  cases k with
  | zero => intro d hd; simp [tstampsLoopF] at hd
  | succ k =>
    simp only [tstampsLoopF]
    split
    · rename_i hg
      exact fun d hd => tstampsLoopF_mem_le res e k (nextD res c) hg d hd
    · intro d hd; simp at hd

theorem tstampsLoopF_strict_incr (res : TempRes) (e : Date) (k : Nat) (c : Date) :
    List.Chain' (fun a b => toN a < toN b) (tstampsLoopF res e k c) :=
  (tstampsLoopF_chain_step res e k c).imp
    (fun a b hab => by rw [hab]; exact toN_nextD res a)

/-- The fuel bound used in `tstamps_for_daterange` is sufficient: beyond
`toN e + 1 - toN c` the result of the bounded loop no longer depends on
the fuel, so the bounded recursion computes the source's `while` loop. -/
theorem tstampsLoopF_fuel_irrel (res : TempRes) (e : Date) :
    ∀ k c, toN e + 1 - toN c ≤ k →
      tstampsLoopF res e k c = tstampsLoopF res e (toN e + 1 - toN c) c := by
  intro k
  induction k using Nat.strong_induction_on with
  | _ k ih =>
    intro c hk
    cases k with
    | zero =>
      have h0 : toN e + 1 - toN c = 0 := by omega
      rw [h0]
    | succ k =>
      by_cases hg : dle (nextD res c) e
      · have hlt := toN_nextD res c
        have hle : toN (nextD res c) ≤ toN e := hg
        obtain ⟨b, hb⟩ : ∃ b, toN e + 1 - toN c = b + 1 := ⟨toN e - toN c, by omega⟩
        rw [hb]
        simp only [tstampsLoopF, if_pos hg]
        have h1 : tstampsLoopF res e k (nextD res c) =
            tstampsLoopF res e (toN e + 1 - toN (nextD res c)) (nextD res c) :=
          ih k (Nat.lt_succ_self k) (nextD res c) (by omega)
        have h2 : tstampsLoopF res e b (nextD res c) =
            tstampsLoopF res e (toN e + 1 - toN (nextD res c)) (nextD res c) :=
          ih b (by omega) (nextD res c) (by omega)
        rw [h1, h2]
      · cases hb : toN e + 1 - toN c with
        | zero => simp [tstampsLoopF, hg]
        | succ b => simp [tstampsLoopF, hg]

/-! Helper lemmas for the filename scan and the image reader. -/

theorem parse_filename_skip (pf : String → Option FileArgs) (pre rest : List String)
    (hpre : ∀ g ∈ pre, pf g = none) :
    parse_filename pf (pre ++ rest) = parse_filename pf rest := by
  induction pre with
  | nil => rfl
  | cons g gs ih =>
    simp only [List.cons_append, parse_filename]
    rw [hpre g (List.mem_cons_self g gs)]
    exact ih (fun x hx => hpre x (List.mem_cons_of_mem g hx))

theorem readParams_error (f : NcFile) (p : String)
    (hp : p ∉ (["lat", "lon", "time"] : List String)) (habs : lookupVar f p = none) :
    ∀ ps, p ∈ ps → ∃ msg, readParams f ps = Except.error msg := by
  intro ps
  induction ps with
  | nil => intro hmem; simp at hmem
  | cons q qs ih =>
    intro hmem
    simp only [readParams]
    by_cases hq : q ∈ (["lat", "lon", "time"] : List String)
    · rw [if_pos hq]
      have hpq : p ≠ q := fun h => hp (h ▸ hq)
      refine ih ?_
      rcases List.mem_cons.mp hmem with h | h
      · exact absurd h hpq
      · exact h
    · rw [if_neg hq]
      rcases List.mem_cons.mp hmem with h | h
      · subst h
        rw [habs]
        exact ⟨p, rfl⟩
      · cases hl : lookupVar f q with
        | none => exact ⟨q, rfl⟩
        | some v =>
          obtain ⟨msg, hmsg⟩ := ih h
          exact ⟨msg, by rw [hmsg]; rfl⟩

/-! The claims. -/

/-- Claim C1: for every start and end datetime with start <= end and a
recognized temporal resolution (MONTHLY, DAILY, or DEKADAL), the list
returned by `tstamps_for_daterange` begins with start, is strictly
increasing, every element is <= end except possibly the first, and every
consecutive pair differs by exactly one resolution step. -/
theorem claim_C1 (tr : String) (res : TempRes) (hres : parseTempRes tr = some res)
    (s e : Date) (_hse : dle s e) :
    ∃ ts, tstamps_for_daterange tr s e = Except.ok ts ∧
      ts.head? = some s ∧
      List.Chain' (fun a b => toN a < toN b) ts ∧
      (∀ d ∈ ts.tail, dle d e) ∧
      List.Chain' (fun a b => b = nextD res a) ts := by
  refine ⟨tstampsLoopF res e (toN e + 1 - toN s) s, ?_,
    tstampsLoopF_head res e _ s, tstampsLoopF_strict_incr res e _ s,
    tstampsLoopF_tail_le res e _ s, tstampsLoopF_chain_step res e _ s⟩
  simp [tstamps_for_daterange, hres]

theorem claim_C1_witness :
    dle d19910805 d19910810 ∧
    ∃ ts, tstamps_for_daterange "DAILY" d19910805 d19910810 = Except.ok ts ∧
      ts.head? = some d19910805 ∧
      List.Chain' (fun a b => toN a < toN b) ts ∧
      (∀ d ∈ ts.tail, dle d d19910810) ∧
      List.Chain' (fun a b => b = nextD TempRes.daily a) ts :=
  ⟨by decide, claim_C1 "DAILY" TempRes.daily (by decide) d19910805 d19910810 (by decide)⟩

/-- Claim C2: with resolution MONTHLY, the range 1991-01-15 .. 1991-04-15
enumerates exactly the four mid-month timestamps, in order. -/
theorem claim_C2 :
    tstamps_for_daterange "MONTHLY" d19910115 d19910415 =
      Except.ok [d19910115, d19910215, d19910315, d19910415] := by
  rfl

/-- Claim C3: every temporal-resolution string other than MONTHLY, DAILY
and DEKADAL makes `tstamps_for_daterange` fail (the source raises
`NotImplementedError`) for any start and end dates, returning no list. -/
theorem claim_C3 (tr : String) (h1 : tr ≠ "MONTHLY") (h2 : tr ≠ "DAILY")
    (h3 : tr ≠ "DEKADAL") (s e : Date) :
    tstamps_for_daterange tr s e = Except.error "NotImplementedError" := by
  simp [tstamps_for_daterange, parseTempRes, h1, h2, h3]

theorem claim_C3_witness :
    tstamps_for_daterange "WEEKLY" d19910115 d19910415 =
      Except.error "NotImplementedError" :=
  claim_C3 "WEEKLY" (by decide) (by decide) (by decide) d19910115 d19910415

/-- Claim C4: the filename-template resolver returns the named field
values of the first file (in walk order) that parses against the
template, with the datetime field replaced by the literal placeholder
token; if no file matches it fails with the no-matching-file error. -/
theorem claim_C4 (pf : String → Option FileArgs) (files : List String) :
    ((∀ f ∈ files, pf f = none) →
        parse_filename pf files =
          Except.error "No file name in passed directory fits to template") ∧
    (∀ (pre : List String) (f : String) (post : List String) (args : FileArgs),
        files = pre ++ f :: post → (∀ g ∈ pre, pf g = none) → pf f = some args →
        parse_filename pf files = Except.ok (withDatetimePlaceholder args)) := by
  constructor
  · intro hall
    have h := parse_filename_skip pf files [] hall
    rw [List.append_nil] at h
    rw [h]
    rfl
  · intro pre f post args hfiles hpre hf
    subst hfiles
    rw [parse_filename_skip pf pre (f :: post) hpre]
    simp only [parse_filename]
    rw [hf]

theorem claim_C4_witness :
    parse_filename
        (fun s => if s = "match.nc" then
            some (FileArgs.mk "C3S" "SSMV" "COMBINED" "MONTHLY" "19910101" "TCDR" "v201801")
          else none)
        ["readme.txt", "match.nc"] =
      Except.ok (FileArgs.mk "C3S" "SSMV" "COMBINED" "MONTHLY" "\x7bdatetime\x7d" "TCDR" "v201801") ∧
    parse_filename (fun _ => (none : Option FileArgs)) ["readme.txt"] =
      Except.error "No file name in passed directory fits to template" := by
  constructor
  · exact (claim_C4 _ _).2 ["readme.txt"] "match.nc" []
      (FileArgs.mk "C3S" "SSMV" "COMBINED" "MONTHLY" "19910101" "TCDR" "v201801")
      rfl (by intro g hg; simp only [List.mem_singleton] at hg; subst hg; rfl) rfl
  · exact (claim_C4 _ _).1 (fun f _ => rfl)

/-- Claim C5: for every point read that yields a time series, `_read_gp`
tags the returned index as UTC, and substitutes the sentinel -9999 with
the missing-value marker exactly when the reader was constructed with
`remove_nans`; with the option disabled the values are returned
unchanged. -/
theorem claim_C5 (rn : Bool) (ts : TimeSeries) (_hne : ts.entries ≠ []) :
    ∃ out, read_gp rn (some ts) = some out ∧
      out.tz = some "UTC" ∧
      (rn = true → out.entries = ts.entries.map (fun p => (p.1, replaceSentinel p.2))) ∧
      (rn = false → out.entries = ts.entries) := by
  cases rn with
  | false =>
    refine ⟨TimeSeries.mk ts.entries (some "UTC"), ?_, rfl, ?_, fun _ => rfl⟩
    · rfl
    · intro h; simp at h
  | true =>
    refine ⟨TimeSeries.mk (ts.entries.map (fun p => (p.1, replaceSentinel p.2))) (some "UTC"),
      ?_, rfl, fun _ => rfl, ?_⟩
    · rfl
    · intro h; simp at h

theorem claim_C5_witness :
    (∃ out,
        read_gp true (some (TimeSeries.mk [(0, TSVal.num (-9999)), (1, TSVal.num 3)] none)) =
          some out ∧
        out.tz = some "UTC" ∧
        (true = true →
          out.entries =
            ([(0, TSVal.num (-9999)), (1, TSVal.num 3)] : List (Nat × TSVal)).map
              (fun p => (p.1, replaceSentinel p.2))) ∧
        (true = false →
          out.entries = ([(0, TSVal.num (-9999)), (1, TSVal.num 3)] : List (Nat × TSVal)))) ∧
    (∃ out,
        read_gp false (some (TimeSeries.mk [(0, TSVal.num (-9999)), (1, TSVal.num 3)] none)) =
          some out ∧
        out.tz = some "UTC" ∧
        (false = true →
          out.entries =
            ([(0, TSVal.num (-9999)), (1, TSVal.num 3)] : List (Nat × TSVal)).map
              (fun p => (p.1, replaceSentinel p.2))) ∧
        (false = false →
          out.entries = ([(0, TSVal.num (-9999)), (1, TSVal.num 3)] : List (Nat × TSVal)))) :=
  ⟨claim_C5 true (TimeSeries.mk [(0, TSVal.num (-9999)), (1, TSVal.num 3)] none) (by simp),
   claim_C5 false (TimeSeries.mk [(0, TSVal.num (-9999)), (1, TSVal.num 3)] none) (by simp)⟩

/-- Claim C6: for every file and every requested variable name absent
from that file (and not one of lat, lon, time), the single-image read
fails (`KeyError`, the spec's `MissingVariable`) instead of returning an
image with that variable empty or omitted. -/
theorem claim_C6 (f : NcFile) (ps : List String) (p : String)
    (hmem : p ∈ ps) (hp : p ∉ (["lat", "lon", "time"] : List String))
    (habs : lookupVar f p = none) :
    ∃ msg, C3SImg_read f (some ps) = Except.error msg := by
  obtain ⟨msg, hmsg⟩ := readParams_error f p hp habs ps hmem
  refine ⟨msg, ?_⟩
  show (readParams f ps).map (fun r => (r.1, r.2, f.ncattrs)) = Except.error msg
  rw [hmsg]
  rfl

theorem claim_C6_witness :
    ∃ msg,
      C3SImg_read (NcFile.mk [("sm", NcVar.mk [] [1, 2])] []) (some ["sm", "bogus"]) =
        Except.error msg :=
  claim_C6 (NcFile.mk [("sm", NcVar.mk [] [1, 2])] []) ["sm", "bogus"] "bogus"
    (by simp) (by decide) rfl

/-- Claim C7: with the optional flags omitted, argument parsing yields
`land_points = False` and `imgbuffer = 50`; supplying `--land_points`
with 'True', 'true', 't', 'T' or '1' yields `land_points = True`. -/
theorem claim_C7 :
    parse_land_points none = false ∧ parse_imgbuffer none = some 50 ∧
    parse_land_points (some "True") = true ∧ parse_land_points (some "true") = true ∧
    parse_land_points (some "t") = true ∧ parse_land_points (some "T") = true ∧
    parse_land_points (some "1") = true :=
  ⟨rfl, rfl, rfl, rfl, rfl, rfl, rfl⟩

/-- Claim C8: `str2bool` maps every string outside
'True', 'true', 't', 'T', '1' to False; being total, it never raises, so
an unrecognized `--land_points` value is silently treated as False. -/
theorem claim_C8 (s : String) (h : s ∉ (["True", "true", "t", "T", "1"] : List String)) :
    str2bool s = false := by
  simp only [str2bool]
  rw [if_neg h]

theorem claim_C8_witness :
    str2bool "False" = false ∧ str2bool "yes" = false ∧ str2bool "TRUE" = false :=
  ⟨claim_C8 "False" (by decide), claim_C8 "yes" (by decide), claim_C8 "TRUE" (by decide)⟩

/-- Claim C9: for every date string whose length is neither 10 nor 16,
`mkdate` returns None (no datetime and no exception), so a malformed
start or end argument of the wrong length passes parsing silently. -/
theorem claim_C9 (s : String) (h10 : s.length ≠ 10) (h16 : s.length ≠ 16) :
    mkdate s = Except.ok none := by
  simp [mkdate, h10, h16]

theorem claim_C9_witness : mkdate "1991-1-5" = Except.ok none :=
  claim_C9 "1991-1-5" (by decide) (by decide)

/-- Claim C10: for every start and end with start > end and a recognized
temporal resolution, `tstamps_for_daterange` returns the singleton list
containing only start — a non-empty result whose element lies outside
the requested range. -/
theorem claim_C10 (tr : String) (res : TempRes) (hres : parseTempRes tr = some res)
    (s e : Date) (h : toN e < toN s) :
    tstamps_for_daterange tr s e = Except.ok [s] ∧ ¬dle s e := by
  constructor
  · have hb : toN e + 1 - toN s = 0 := by omega
    simp [tstamps_for_daterange, hres, hb, tstampsLoopF]
  · simp only [dle]
    omega

theorem claim_C10_witness :
    tstamps_for_daterange "DAILY" d19910810 d19910805 = Except.ok [d19910810] ∧
      ¬dle d19910810 d19910805 :=
  claim_C10 "DAILY" TempRes.daily (by decide) d19910810 d19910805 (by decide)
